import Mathlib

/-!
Verification development for the trust-tunnel agent-side session broker.

Go strings are modelled as lists of characters (`GoStr`); byte streams as
lists of naturals (`GoBytes`).  Each definition below is a shallow embedding
of the correspondingly named Go function of the repository; comments name
the source file.  Machine integers are modelled as `Int` with explicit
clamping where Go's `strconv` clamps.
-/

/-- Go strings, modelled as lists of characters (one element per byte of the
Go string; all relevant inputs are ASCII). -/
abbrev GoStr := List Char

/-- Byte streams (docker attach payloads). -/
abbrev GoBytes := List Nat

/-- Conversion from a Lean string literal to the Go-string model. -/
def gs (s : String) : GoStr := s.toList

/-- Go `strings.HasPrefix`. -/
def goHasPre (s pre : GoStr) : Bool := pre.isPrefixOf s

/-- Go `strings.HasSuffix`. -/
def goHasSuf (s suf : GoStr) : Bool := suf.isSuffixOf s

/-- Helper for Go `strings.Contains`: scans every suffix of the haystack. -/
def goContainsAux (pat : GoStr) : GoStr → Bool
  | [] => pat.isEmpty
  | c :: rest => pat.isPrefixOf (c :: rest) || goContainsAux pat rest

/-- Go `strings.Contains s sub`. -/
def goContains (s sub : GoStr) : Bool := goContainsAux sub s

/-- Go `strings.Split` with a one-character separator (the only form the
embedded code uses). -/
def goSplit (sep : Char) : GoStr → List GoStr
  | [] => [[]]
  | c :: rest =>
    let r := goSplit sep rest
    if c = sep then [] :: r
    else
      match r with
      | [] => [[c]]
      | h :: t => (c :: h) :: t

/-- Go `bytes.TrimPrefix`. -/
def goTrimPre (s pre : GoStr) : GoStr :=
  if pre.isPrefixOf s then s.drop pre.length else s

/-- First element of a Go header slice (`tmp[0]`), empty string if absent. -/
def hd0 (l : List GoStr) : GoStr := l.getD 0 []

/-- Digit accumulator for `strconv` parsing: all characters must be decimal
digits and the list must be nonempty. -/
def digitsToNat? : GoStr → Option Nat
  | [] => none
  | [c] => if c.isDigit then some (c.toNat - 48) else none
  | c :: rest =>
    if c.isDigit then
      (digitsToNat? rest).map (fun n => (c.toNat - 48) * 10 ^ rest.length + n)
    else none

/-- Syntactic part of Go `strconv.Atoi` (base-10 `ParseInt` without the
range check): optional sign followed by a nonempty digit string. -/
def goAtoiParse (s : GoStr) : Option Int :=
  match s with
  | '+' :: rest => (digitsToNat? rest).map Int.ofNat
  | '-' :: rest => (digitsToNat? rest).map (fun n => -(Int.ofNat n))
  | _ => (digitsToNat? s).map Int.ofNat

/-- Largest `int64` value. -/
def int64Max : Int := 9223372036854775807

/-- Smallest `int64` value. -/
def int64Min : Int := -9223372036854775808

/-- Value component of Go `v, _ := strconv.Atoi(s)`: syntax errors yield 0,
range errors yield the clamped extreme (Go returns the clamped value
together with `ErrRange`, and the callers in scope discard the error). -/
def goAtoiVal (s : GoStr) : Int :=
  match goAtoiParse s with
  | none => 0
  | some v => if v > int64Max then int64Max else if v < int64Min then int64Min else v

/-- Go `strconv.Atoi` when the caller checks the error: succeeds only on
valid syntax within the `int64` range. -/
def goAtoiStrict (s : GoStr) : Option Int :=
  match goAtoiParse s with
  | none => none
  | some v => if v > int64Max then none else if v < int64Min then none else some v

/-- Go `strconv.ParseBool`. -/
def goParseBool (s : GoStr) : Option Bool :=
  if s = gs ("1") ∨ s = gs ("t") ∨ s = gs ("T") ∨ s = gs ("TRUE") ∨
      s = gs ("true") ∨ s = gs ("True") then some true
  else if s = gs ("0") ∨ s = gs ("f") ∨ s = gs ("F") ∨ s = gs ("FALSE") ∨
      s = gs ("false") ∨ s = gs ("False") then some false
  else none

/-- Decimal-mantissa acceptance for Go `strconv.ParseFloat` (the request
parser only tests success; hexadecimal floats are not modelled since no
claim exercises them). -/
def goParseFloatOk (s : GoStr) : Bool :=
  let body :=
    match s with
    | '+' :: rest => rest
    | '-' :: rest => rest
    | other => other
  let mantissaExp :=
    match goSplit 'e' ((body.map Char.toLower)) with
    | [m] => some (m, none)
    | [m, e] => some (m, some e)
    | _ => none
  match mantissaExp with
  | none => false
  | some (m, e) =>
    let mOk :=
      match goSplit '.' m with
      | [i] => i ≠ [] && i.all Char.isDigit
      | [i, f] => (i ++ f) ≠ [] && (i ++ f).all Char.isDigit
      | _ => false
    let eOk :=
      match e with
      | none => true
      | some ('+' :: d) => d ≠ [] && d.all Char.isDigit
      | some ('-' :: d) => d ≠ [] && d.all Char.isDigit
      | some d => d ≠ [] && d.all Char.isDigit
    mOk && eOk ||
      (body.map Char.toLower = gs ("inf") || body.map Char.toLower = gs ("infinity") ||
        body.map Char.toLower = gs ("nan"))

/-- Lines of a file as produced by repeated `bufio.ReadString` with a
newline delimiter: each complete line keeps its trailing newline, and a
final unterminated fragment is dropped (the Go loops break on `io.EOF`
without processing the partial read). -/
def goLinesNLAux (acc : GoStr) : GoStr → List GoStr
  | [] => []
  | c :: rest =>
    if c = '\n' then (acc ++ ['\n']) :: goLinesNLAux [] rest
    else goLinesNLAux (acc ++ [c]) rest

/-- Complete newline-terminated lines of a string. -/
def goLinesNL (s : GoStr) : List GoStr := goLinesNLAux [] s

/-- Integer rendering used in Go format verbs (`%d`). -/
def goIntToStr (n : Int) : GoStr :=
  if n < 0 then '-' :: Nat.toDigits 10 n.natAbs else Nat.toDigits 10 n.natAbs

/-- Go `sessionutil.WrapContainerError` (pkg/common/sessionutil): rewrites
well-known runtime error texts, shortening the container id to six bytes. -/
def wrapContainerError (errMsg containerID : GoStr) : GoStr :=
  let cid := if containerID.length > 6 then containerID.take 6 else containerID
  if goContains errMsg (gs ("No such container")) || goContains errMsg (gs ("not found")) then
    gs ("can\x27t find container:") ++ cid
  else if goContains errMsg (gs ("is not running")) then
    gs ("container is not running:") ++ cid
  else if goContains errMsg (gs ("no such file or directory")) ||
      goContains errMsg (gs ("connection refused")) then
    gs ("docker is unavailable")
  else errMsg

/-- Go `sessionutil.WrapErrorWithCode`: substring-classifies an error text
into the MA_* taxonomy and prefixes `code=<code>,msg=`. -/
def wrapErrorWithCode (errMsg : GoStr) : GoStr :=
  let code :=
    if goContains errMsg (gs ("no space left on device")) then gs ("MA_513")
    else if goContains errMsg (gs ("visit authorization server failed")) then gs ("MA_518")
    else if goContains errMsg (gs ("verify client certificate error")) then gs ("MA_519")
    else if goContains errMsg (gs ("current sidecar num exceed the limit")) then gs ("MA_521")
    else if goContains errMsg (gs ("can\x27t find container")) then gs ("MA_522")
    else if goContains errMsg (gs ("container is not running")) then gs ("MA_523")
    else if goContains errMsg (gs ("docker daemon is unavailable")) then gs ("MA_524")
    else if goContains errMsg (gs ("is not permitted to login on host")) then gs ("MA_525")
    else if goContains errMsg (gs ("user does not exist")) then gs ("MA_526")
    else if goContains errMsg (gs ("nsenter host namespace failed")) then gs ("MA_527")
    else if goContains errMsg (gs ("SSH public key insert error")) then gs ("MA_528")
    else if goContains errMsg (gs ("SSH private key read error")) then gs ("MA_529")
    else if goContains errMsg (gs ("SSH private key parse error")) then gs ("MA_530")
    else if goContains errMsg (gs ("SSH connect error")) then gs ("MA_531")
    else gs ("MA_-1")
  gs ("code=") ++ code ++ gs (",msg=") ++ errMsg

/-- Loop body of Go `sessionutil.findUser` (pkg/common/sessionutil/process.go)
over the complete lines of the passwd file.  A line is selected when it has
seven colon-separated segments, its first segment equals the user name, the
whole line does not contain "nologin" and its seventh segment ends in
"sh" followed by the newline; otherwise scanning continues.  When no line is
selected the function returns three empty strings and no error. -/
def findUserLines (username : GoStr) : List GoStr → GoStr × GoStr × GoStr
  | [] => ([], [], [])
  | line :: rest =>
    let segs := goSplit ':' line
    if segs.length ≠ 7 then findUserLines username rest
    else if segs.getD 0 [] ≠ username then findUserLines username rest
    else if !goContains line (gs ("nologin")) && goHasSuf (segs.getD 6 []) (gs ("sh\n")) then
      (segs.getD 2 [], segs.getD 3 [], segs.getD 5 [])
    else findUserLines username rest

/-- Go `sessionutil.findUser` on the content of the passwd file (the
file-open and read errors are outside the model). -/
def findUser (username passwdContent : GoStr) : GoStr × GoStr × GoStr :=
  findUserLines username (goLinesNL passwdContent)

/-- Go `sessionutil.GetUserInfo` forwards `findUser` unchanged. -/
def getUserInfo (username passwdContent : GoStr) : GoStr × GoStr × GoStr :=
  findUser username passwdContent

/-- Go `sessionutil.GetLoginDirAndIDs`: fails with the "not permitted to
login on host" message when `findUser` produced an empty login directory
(this is the only producer of the MA_525 classification; it is called from
the ssh backend, not from the nsenter backend). -/
def getLoginDirAndIDs (username passwdContent rootfsPrefix : GoStr) :
    Except GoStr (Int × Int × GoStr) :=
  let r := findUser username passwdContent
  if r.2.2.length = 0 then
    .error (gs ("username ") ++ username ++ gs (" is not permitted to login on host"))
  else
    .ok (goAtoiVal r.1, goAtoiVal r.2.1, rootfsPrefix ++ r.2.2)

/-- User-resolution prefix of Go `establishNsenterSession`
(session/nsenter backend, lines 148-157): with a nonempty login name it
resolves the user from the passwd content and fails with
"user does not exist:<name>" when the returned uid is empty. -/
def nsenterUserCheck (loginName passwdContent : GoStr) :
    Except GoStr (GoStr × GoStr × GoStr) :=
  if loginName ≠ [] then
    let r := getUserInfo loginName passwdContent
    if r.1 = [] then .error (gs ("user does not exist:") ++ loginName)
    else .ok r
  else .ok ([], [], [])

/-- A docker container as seen by the sidecar cleanup loop. -/
structure DockerContainer where
  image : GoStr
  state : GoStr
  /-- Creation time, unix seconds (`c.Created`). -/
  created : Int
deriving DecidableEq, Repr

/-- Go constant `defaultSidecarImage` in the sidecar package. -/
def defaultSidecarImage : GoStr := gs ("trust-tunnel-sidecar:latest")

/-- Per-container predicate of the loop body of
`sidecar.CleanLegacyContainerPeriodically`: the image must begin with the
built-in `defaultSidecarImage` constant (the configured image is not a
parameter of the function), the state must differ from "running", and the
creation instant must lie strictly before one hour ago. -/
def isLegacySidecar (now : Int) (c : DockerContainer) : Bool :=
  goHasPre c.image defaultSidecarImage && c.state ≠ gs ("running") &&
    decide (c.created < now - 3600)

/-- One iteration of the `CleanLegacyContainerPeriodically` loop: the
containers for which a forced remove is issued, in list order.  A failing
removal is logged and skipped, leaving the set of attempted removals
unchanged. -/
def cleanLegacyIteration (now : Int) : List DockerContainer → List DockerContainer
  | [] => []
  | c :: rest =>
    if isLegacySidecar now c then c :: cleanLegacyIteration now rest
    else cleanLegacyIteration now rest

/-- Filter the specification's words describe for the cleanup loop: it
speaks of the configured sidecar image rather than the built-in default.
Kept separate so the two can be compared. -/
def specLegacySidecar (configuredImage : GoStr) (now : Int) (c : DockerContainer) : Bool :=
  goHasPre c.image configuredImage && c.state ≠ gs ("running") &&
    decide (c.created < now - 3600)

/-- Container runtime selector (`agentSession.ContainerRuntime`). -/
inductive RuntimeKind where
  | docker
  | containerd
deriving DecidableEq, Repr

/-- A stale session entry of the broker (`backend.StaleSession`); the live
`session.Session` value is abstracted by an opaque handle. -/
structure StaleSession where
  userName : GoStr
  sessRef : Nat
  isSidecarSession : Bool
deriving DecidableEq, Repr

/-- Broker state relevant to the stale-session table and the sidecar
gauge (`backend.Handler`). -/
structure BrokerState where
  staleSessions : List (GoStr × StaleSession)
  currentSidecarNum : Int
deriving DecidableEq, Repr

/-- Map lookup on the stale-session table. -/
def lookupStale (table : List (GoStr × StaleSession)) (id : GoStr) : Option StaleSession :=
  match table with
  | [] => none
  | (k, v) :: rest => if k = id then some v else lookupStale rest id

/-- Map deletion on the stale-session table. -/
def removeStale (table : List (GoStr × StaleSession)) (id : GoStr) :
    List (GoStr × StaleSession) :=
  match table with
  | [] => []
  | (k, v) :: rest => if k = id then removeStale rest id else (k, v) :: removeStale rest id

/-- Go `Handler.checkSidecarNum` (backend/handler.go, lines 317-332),
translated verbatim: the local `isContainerSidecarSession` is set to true in
the docker clean-mode branch, the function returns it together with an error
when the counter has reached the limit, and otherwise returns the literal
`false` with no error. -/
def checkSidecarNum (currentSidecarNum limit : Int) (disableCleanMode : Bool)
    (runtime : RuntimeKind) : Bool × Option GoStr :=
  if runtime = RuntimeKind.docker then
    if !disableCleanMode then
      -- isContainerSidecarSession := true
      if currentSidecarNum ≥ limit then
        (true, some (gs ("current sidecar num exceed the limit: ") ++
          goIntToStr currentSidecarNum ++ gs (",") ++ goIntToStr limit ++ gs (" ")))
      else (false, none)
    else (false, none)
  else (false, none)

/-- Result of the session-acquisition phase of `Handler.Handle`
(backend/handler.go, lines 186-235). -/
inductive AcquireResult where
  /-- A stale session was reclaimed; carries the reused session handle, the
  broker state after the table deletion, and the local
  `isSidecarSession` value at the end of the phase. -/
  | reused (sessRef : Nat) (st : BrokerState) (isSidecarSession : Bool)
  /-- A fresh session was established; carries the broker state after the
  conditional gauge increment and the local `isSidecarSession` value. -/
  | created (st : BrokerState) (isSidecarSession : Bool)
  /-- The request was rejected before wiring; carries the unchanged broker
  state and the wrapped close-frame error text. -/
  | failed (st : BrokerState) (errMsg : GoStr)
deriving DecidableEq, Repr

/-- Session-acquisition phase of `Handler.Handle`: stale-session reclaim
under the table mutex (lines 186-194), then for a fresh session the
container pre-check (`checkSidecarNum`; the runtime-readiness check is
modelled as passing) and establishment, then the conditional sidecar-gauge
increment (lines 230-232).  `establishOk` abstracts success of
`EstablishSession`.  Note that the local `isSidecarSession` variable is
declared after the reclaim block, so a reclaimed session always ends the
phase with `isSidecarSession = false`. -/
def handleAcquire (st : BrokerState) (sessID userName : GoStr)
    (targetContainer disableCleanMode : Bool) (runtime : RuntimeKind)
    (limit : Int) (containerID : GoStr) (establishOk : Bool) : AcquireResult :=
  -- reclaim block (under handler.lock)
  let reclaimed :=
    match lookupStale st.staleSessions sessID with
    | some stale =>
      if sessID ≠ [] ∧ userName = stale.userName then
        some (stale.sessRef, { st with staleSessions := removeStale st.staleSessions sessID })
      else none
    | none => none
  match reclaimed with
  | some (ref, st1) =>
    -- `var isSidecarSession bool` is declared below the reclaim block and
    -- never restored from the stale entry.
    AcquireResult.reused ref st1 false
  | none =>
    -- fresh session: containerPreCheck, then EstablishSession
    let pre := if targetContainer then
        checkSidecarNum st.currentSidecarNum limit disableCleanMode runtime
      else (false, none)
    match pre.2 with
    | some errMsg =>
      AcquireResult.failed st (wrapErrorWithCode (wrapContainerError errMsg containerID))
    | none =>
      if establishOk then
        let isSidecar := pre.1
        if isSidecar then
          AcquireResult.created
            { st with currentSidecarNum := st.currentSidecarNum + 1 } isSidecar
        else AcquireResult.created st isSidecar
      else AcquireResult.failed st (gs ("establish error"))

/-- Session-release phase of `Handler.Handle` (lines 256-275): on a stream
error the session is reserved as a stale entry carrying the local
`isSidecarSession`; otherwise `releaseSession` cleans the session, removes
the table entry, and the gauge is decremented only when the cleanup
succeeded and the local `isSidecarSession` is set. -/
def handleRelease (st : BrokerState) (sessID userName : GoStr) (sessRef : Nat)
    (isSidecarSession streamErr cleanOk : Bool) : BrokerState :=
  if streamErr then
    { st with staleSessions :=
        (sessID, { userName := userName, sessRef := sessRef,
                   isSidecarSession := isSidecarSession }) :: removeStale st.staleSessions sessID }
  else
    let st2 := { st with staleSessions := removeStale st.staleSessions sessID }
    if cleanOk && isSidecarSession then
      { st2 with currentSidecarNum := st2.currentSidecarNum - 1 }
    else st2

/-- Mutable resources of a `dockerSession` relevant to `Clean`
(session/docker.go): the attach connection (a Go interface value that
`Clean` sets to nil) and whether the sidecar container has been removed. -/
structure DockerSessResources where
  /-- `some` while the attach connection is live; `none` once `Clean` has
  stored nil into the interface field. -/
  conn : Option Unit
  isExec : Bool
  containerRemoved : Bool
deriving DecidableEq, Repr

/-- Outcome of a Go call in the model: normal completion or a runtime
panic (nil-pointer dereference). -/
inductive GoOutcome where
  | ok
  | panicked
deriving DecidableEq, Repr

/-- Go `dockerSession.Clean` (session/docker.go, lines 130-154): calls
`s.conn.Close()` unconditionally — a nil-pointer dereference when `conn`
was already set to nil by a previous invocation — then nils the field,
kills the legacy process group, and for the sidecar variant force-removes
the container.  `removeOk` abstracts success of `ContainerRemove`. -/
def dockerClean (st : DockerSessResources) (removeOk : Bool) :
    GoOutcome × DockerSessResources :=
  match st.conn with
  | none => (GoOutcome.panicked, st)
  | some _ =>
    let st1 := { st with conn := none }
    if st1.isExec then (GoOutcome.ok, st1)
    else
      if removeOk then (GoOutcome.ok, { st1 with containerRemoved := true })
      else (GoOutcome.ok, st1)

/-- Output-stream dispatch modes of a docker session. -/
inductive OutputStreamMode where
  | unified
  | split
deriving DecidableEq, Repr

/-- Go `dockerSession.handleStreamOutput` (session/docker.go, lines
388-398): tty sessions stream unified; otherwise the `exec` parameter
selects the split demuxer. -/
def handleStreamOutput (tty exec : Bool) : OutputStreamMode :=
  if tty then OutputStreamMode.unified
  else if exec then OutputStreamMode.split
  else OutputStreamMode.unified

/-- Stream-dispatch mode chosen by `establishDockerSession` (line 240):
the goroutine is started with argument `!c.DisableCleanMode`, so the
sidecar variant (clean mode) gets the split demuxer and the direct-exec
variant gets the unified reader. -/
def dockerSessionStreamMode (tty disableCleanMode : Bool) : OutputStreamMode :=
  handleStreamOutput tty (!disableCleanMode)

/-- Go `dockerSession.streamUnifiedOutput`: reads chunks of at most 4096
bytes and sends every chunk to the stdout channel until the stream ends. -/
def streamUnifiedOutput : GoBytes → List GoBytes
  | [] => []
  | b :: rest =>
    ((b :: rest).take 4096) :: streamUnifiedOutput ((b :: rest).drop 4096)
termination_by input => input.length
decreasing_by simp [List.length_drop]; omega

/-- Big-endian 32-bit integer of four header bytes
(`binary.BigEndian.Uint32`). -/
def beUint32 (b0 b1 b2 b3 : Nat) : Nat :=
  ((b0 * 256 + b1) * 256 + b2) * 256 + b3

/-- Big-endian 4-byte encoding of a length below `2 ^ 32`. -/
def be32Bytes (n : Nat) : GoBytes :=
  [n / 16777216 % 256, n / 65536 % 256, n / 256 % 256, n % 256]

/-- Step result of one frame-payload pump of `streamSplitOutput`. -/
inductive SplitStep where
  /-- The frame payload was fully consumed; carries the channel contents and
  the number of input bytes the pump consumed, after which the outer loop
  continues. -/
  | cont (out err : List GoBytes) (consumed : Nat)
  /-- The reader goroutine returned without closing the channels (ReadFull
  failure, stdin-typed frame, or unrecognized stream byte). -/
  | stop (out err : List GoBytes)
deriving DecidableEq, Repr

/-- Inner loop of Go `dockerSession.streamSplitOutput` (session/docker.go,
lines 452-496): while payload bytes remain, read a chunk of at most 4096
bytes with `io.ReadFull`, then dispatch it on the stream byte — stdout
chunks to the stdout channel, stderr chunks to the stderr channel; a
chunk of an stdin-typed or unrecognized frame makes the goroutine return.
The consumed-byte count stands for the advance of the buffered reader. -/
def pumpFrame (stream : Nat) (left : Nat) (input : GoBytes)
    (out err : List GoBytes) : SplitStep :=
  if _hleft : left = 0 then SplitStep.cont out err 0
  else
    let size := min left 4096
    if input.length < size then SplitStep.stop out err
    else
      let chunk := input.take size
      let rest := input.drop size
      let recurse :=
        match stream with
        | 1 => some (pumpFrame stream (left - size) rest (out ++ [chunk]) err)
        | 2 => some (pumpFrame stream (left - size) rest out (err ++ [chunk]))
        | _ => none
      match recurse with
      | some (SplitStep.cont o e n) => SplitStep.cont o e (size + n)
      | some (SplitStep.stop o e) => SplitStep.stop o e
      | none => SplitStep.stop out err
termination_by left
decreasing_by all_goals omega

/-- Final channel contents produced by the split-demux goroutine. -/
inductive SplitResult where
  /-- The header peek failed (stream over): both channels are closed, the
  drained chunks are final. -/
  | closed (out err : List GoBytes)
  /-- The goroutine returned early (ReadFull failure, stdin frame, or an
  unrecognized stream byte); the channels stay open. -/
  | aborted (out err : List GoBytes)
deriving DecidableEq, Repr

/-- Outer loop of Go `dockerSession.streamSplitOutput` (session/docker.go,
lines 430-498): peek an 8-byte header — byte 0 is the stream type, bytes
4..8 the big-endian frame size — discard it and pump the payload. -/
def streamSplitLoop (input : GoBytes) (out err : List GoBytes) : SplitResult :=
  if _h8 : input.length < 8 then SplitResult.closed out err
  else
    let stream := input.getD 0 0
    let frameSize := beUint32 (input.getD 4 0) (input.getD 5 0) (input.getD 6 0) (input.getD 7 0)
    let body := input.drop 8
    match pumpFrame stream frameSize body out err with
    | SplitStep.cont o e consumed => streamSplitLoop (body.drop consumed) o e
    | SplitStep.stop o e => SplitResult.aborted o e
termination_by input.length
decreasing_by simp only [List.length_drop]; omega

/-- Go `dockerSession.streamSplitOutput` started on a fresh session (empty
channels). -/
def streamSplitOutput (input : GoBytes) : SplitResult :=
  streamSplitLoop input [] []

/-- Observable state of the per-session done-signal channels at the moment
the exit-code accessor runs: whether a value has been sent on the
stdout-done and stderr-done channels. -/
structure DrainSignals where
  stdoutDone : Bool
  stderrDone : Bool
deriving DecidableEq, Repr

/-- Go `dockerSession.ExitCode` (session/docker.go, lines 172-197): receives
from the stdout-done channel, then from the stderr-done channel, then
inspects the container or exec for the status.  `none` models a blocked
receive; `inspectCode` abstracts the status the runtime reports. -/
def dockerExitCode (sig : DrainSignals) (inspectCode : Int) : Option Int :=
  if sig.stdoutDone then
    if sig.stderrDone then some inspectCode else none
  else none

/-- Observable state of a `containerdSession` when its exit-code accessor
runs.  `waitCompleted` is true once the `wait` goroutine has stored the task
status into `s.exitCode`; that goroutine receives from both done channels
first, so `waitCompleted` entails both drain signals. -/
structure ContainerdObs where
  waitCompleted : Bool
  sig : DrainSignals
  status : Nat
deriving DecidableEq, Repr

/-- Go `containerdSession.ExitCode` (session/containerd backend, lines
128-130): returns `int(s.exitCode)` immediately — the zero value before the
`wait` goroutine has stored the task status, with no blocking of any kind. -/
def containerdExitCode (st : ContainerdObs) : Option Int :=
  some (if st.waitCompleted then Int.ofNat st.status else 0)

/-- Observable state of an `nsenterSession` (or `sshSession`) when its
exit-code accessor runs.  `exitFired` is true once the `wait` goroutine has
closed `exitCh`, which it does only after receiving both done signals;
`timerFired` is true when the two-second `time.After` timer becomes ready
before `exitCh` does. -/
structure TimedExitObs where
  exitFired : Bool
  timerFired : Bool
  sig : DrainSignals
  exitCode : Int
deriving DecidableEq, Repr

/-- Go `nsenterSession.ExitCode` (session/nsenter backend, lines 117-125):
selects between the exit channel and a two-second timer; the timer branch
returns 0 regardless of the drain state.  `none` models a select with
neither branch ready yet. -/
def nsenterExitCode (st : TimedExitObs) : Option Int :=
  if st.exitFired then some st.exitCode
  else if st.timerFired then some 0
  else none

/-- Go `sshSession.ExitCode` (session/ssh backend, lines 90-97): the same
select between the exit channel and a two-second timer returning 0. -/
def sshExitCode (st : TimedExitObs) : Option Int :=
  if st.exitFired then some st.exitCode
  else if st.timerFired then some 0
  else none

/-- Whether an `nsenterSession.wait` / `sshSession.wait` goroutine can have
closed the exit channel: both goroutines receive from the stdout-done and
stderr-done channels before closing it, so `exitFired` entails a drained
session. -/
def waiterConsistent (st : TimedExitObs) : Bool :=
  !st.exitFired || (st.sig.stdoutDone && st.sig.stderrDone)

/-- Whether a `containerdSession.wait` goroutine can have stored the task
status: it receives from both done channels before the store. -/
def containerdWaiterConsistent (st : ContainerdObs) : Bool :=
  !st.waitCompleted || (st.sig.stdoutDone && st.sig.stderrDone)

/-- The request envelope: one slice of values per header name the agent
reads (`r.Header["..."]` in `request.GetRequestInfo`). -/
structure GoHeaders where
  sessionId : List GoStr := []
  agentAddr : List GoStr := []
  userName : List GoStr := []
  appName : List GoStr := []
  ipAddress : List GoStr := []
  loginName : List GoStr := []
  loginGroup : List GoStr := []
  targetType : List GoStr := []
  podName : List GoStr := []
  containerId : List GoStr := []
  containerName : List GoStr := []
  interactive : List GoStr := []
  tty : List GoStr := []
  commandB64 : List GoStr := []
  command : List GoStr := []
  cpus : List GoStr := []
  memory : List GoStr := []
  disableCleanMode : List GoStr := []
deriving DecidableEq, Repr

/-- Go constant `client.TargetPhys` (a `TargetType byte` built with iota,
so the physical target is the zero value). -/
def clientTargetPhys : Nat := 0

/-- Go constant `client.TargetContainer`. -/
def clientTargetContainer : Nat := 1

/-- The parsed request (`request.Info`).  The cpu share is kept as the raw
header text: no embedded claim depends on float arithmetic. -/
structure RequestInfo where
  sessionID : GoStr := []
  agentAddr : GoStr := []
  userName : GoStr := []
  appName : GoStr := []
  ipAddress : GoStr := []
  loginName : GoStr := []
  loginGroup : GoStr := []
  targetType : Nat := 0
  podName : GoStr := []
  containerID : GoStr := []
  containerName : GoStr := []
  interactive : Bool := false
  tty : Bool := false
  cmd : List GoStr := []
  useBase64 : Bool := false
  cpusRaw : GoStr := []
  memoryMB : Int := 0
  disableCleanMode : Bool := false
deriving DecidableEq, Repr

/-- Index of a standard-base64 alphabet character. -/
def b64Idx (c : Char) : Option Nat :=
  if 'A' ≤ c ∧ c ≤ 'Z' then some (c.toNat - 65)
  else if 'a' ≤ c ∧ c ≤ 'z' then some (c.toNat - 97 + 26)
  else if '0' ≤ c ∧ c ≤ '9' then some (c.toNat - 48 + 52)
  else if c = '+' then some 62
  else if c = '/' then some 63
  else none

/-- Decode padded base64 quanta (groups of four characters; padding only in
the final quantum).  Returns the decoded bytes as characters of the Go
string, or `none` on corrupt input. -/
def b64Groups : GoStr → Option GoStr
  | [] => some []
  | c1 :: c2 :: c3 :: c4 :: rest =>
    match b64Idx c1, b64Idx c2 with
    | some i1, some i2 =>
      if c3 = '=' then
        if c4 = '=' ∧ rest = [] then
          some [Char.ofNat (i1 * 4 + i2 / 16)]
        else none
      else
        match b64Idx c3 with
        | some i3 =>
          if c4 = '=' then
            if rest = [] then
              some [Char.ofNat (i1 * 4 + i2 / 16), Char.ofNat (i2 % 16 * 16 + i3 / 4)]
            else none
          else
            match b64Idx c4 with
            | some i4 =>
              (b64Groups rest).map (fun tail =>
                Char.ofNat (i1 * 4 + i2 / 16) :: Char.ofNat (i2 % 16 * 16 + i3 / 4) ::
                  Char.ofNat (i3 % 4 * 64 + i4) :: tail)
            | none => none
        | none => none
    | _, _ => none
  | _ => none

/-- Go `base64.StdEncoding.DecodeString`: carriage returns and newlines are
skipped, the rest must form padded four-character quanta. -/
def goBase64Decode (s : GoStr) : Option GoStr :=
  b64Groups (s.filter (fun c => c ≠ '\n' ∧ c ≠ '\r'))

/-- Decode loop of `request.GetRequestInfo` over the
`Command-Base64-Encode` elements: each element is decoded individually and
the first corrupt element fails the whole request (the Go error text embeds
the decoder error; the model keeps the fixed prefix). -/
def decodeCommands : List GoStr → Except GoStr (List GoStr)
  | [] => .ok []
  | x :: rest =>
    match goBase64Decode x with
    | none => .error (gs ("decoding command error"))
    | some d =>
      match decodeCommands rest with
      | .error e => .error e
      | .ok tail => .ok (d :: tail)

/-- Go `request.GetRequestInfo` (backend/request package): sequential
extraction of the header fields with early error returns, translated in
source order.  Wrapped error texts of the bool/float/int parsers keep the
fixed Go prefix without the embedded parser message. -/
def getRequestInfo (h : GoHeaders) : Except GoStr RequestInfo :=
  let info0 : RequestInfo := {
    sessionID := hd0 h.sessionId
    agentAddr := hd0 h.agentAddr
    userName := hd0 h.userName
    appName := hd0 h.appName
    ipAddress := hd0 h.ipAddress
    loginName := hd0 h.loginName
    loginGroup := hd0 h.loginGroup }
  -- Target-Type block: absent header leaves the zero value TargetPhys.
  let tt? : Except GoStr Nat :=
    if h.targetType.length > 0 then
      if hd0 h.targetType = gs ("physical") then .ok clientTargetPhys
      else if hd0 h.targetType = gs ("container") then .ok clientTargetContainer
      else .error (gs ("request error: invalid target type"))
    else .ok info0.targetType
  match tt? with
  | .error e => .error e
  | .ok tt =>
    -- container block: pod name mandatory only for the container target.
    let cont? : Except GoStr (GoStr × GoStr × GoStr) :=
      if tt = clientTargetContainer then
        if h.podName.length = 0 then
          .error (gs ("request error: no pod name of container target"))
        else .ok (hd0 h.podName, hd0 h.containerId, hd0 h.containerName)
      else .ok ([], [], [])
    match cont? with
    | .error e => .error e
    | .ok (pod, cid, cname) =>
      let inter? : Except GoStr Bool :=
        if h.interactive.length > 0 then
          match goParseBool (hd0 h.interactive) with
          | some b => .ok b
          | none => .error (gs ("request error: invalid interactive argument"))
        else .ok false
      match inter? with
      | .error e => .error e
      | .ok inter =>
        let tty? : Except GoStr Bool :=
          if h.tty.length > 0 then
            match goParseBool (hd0 h.tty) with
            | some b => .ok b
            | none => .error (gs ("request error: invalid tty argument"))
          else .ok false
        match tty? with
        | .error e => .error e
        | .ok tty =>
          -- command ingestion: the base64 header list is preferred.
          let cmd? : Except GoStr (List GoStr × Bool) :=
            if h.commandB64.length = 0 then
              if h.command.length = 0 then .error (gs ("request error: no command"))
              else .ok (h.command, false)
            else
              match decodeCommands h.commandB64 with
              | .error e => .error e
              | .ok decoded => .ok (decoded, true)
          match cmd? with
          | .error e => .error e
          | .ok (cmd, useB64) =>
            let cpus? : Except GoStr GoStr :=
              if h.cpus.length > 0 then
                if goParseFloatOk (hd0 h.cpus) then .ok (hd0 h.cpus)
                else .error (gs ("request error: invalid cpus argument"))
              else .ok []
            match cpus? with
            | .error e => .error e
            | .ok cpus =>
              let mem? : Except GoStr Int :=
                if h.memory.length > 0 then
                  match goAtoiStrict (hd0 h.memory) with
                  | some v => .ok v
                  | none => .error (gs ("request error: invalid memoryMB argument"))
                else .ok 0
              match mem? with
              | .error e => .error e
              | .ok mem =>
                let dcm := h.disableCleanMode.length > 0 && hd0 h.disableCleanMode = gs ("1")
                .ok { info0 with
                  targetType := tt
                  podName := pod
                  containerID := cid
                  containerName := cname
                  interactive := inter
                  tty := tty
                  cmd := cmd
                  useBase64 := useB64
                  cpusRaw := cpus
                  memoryMB := mem
                  disableCleanMode := dcm }

/-- Early phase of `Handler.Handle` (backend/handler.go, lines 130-135):
a request-parse failure returns before authorization, upgrade, pre-checks
and `EstablishSession`; only a parsed request reaches backend
construction. -/
inductive HandleStage where
  | rejectedAtParse
  | reachedEstablish (info : RequestInfo)
deriving DecidableEq, Repr

/-- Whether `Handler.Handle` proceeds past request parsing. -/
def handleParseStage (h : GoHeaders) : HandleStage :=
  match getRequestInfo h with
  | .error _ => HandleStage.rejectedAtParse
  | .ok info => HandleStage.reachedEstablish info

/-- Action taken by the inbound goroutine for one frame. -/
inductive RemoteInputAction where
  /-- `sessConn.sess.Resize(h, w)` is invoked with these values. -/
  | resize (h w : Int)
  /-- The goroutine returns cleanly on a close-session control message. -/
  | closeSession
  /-- The message is dropped and the loop continues. -/
  | ignore
deriving DecidableEq, Repr

/-- Text-frame handling of Go `Connection.processRemoteInput`
(backend io, lines 346-377): the payload is read once into a 128-byte
buffer, so only its first 128 bytes are examined; a `resize: ` payload is
split on commas into exactly two fields whose `strconv.Atoi` values (errors
discarded) must both be strictly positive for `Resize` to run; a
`close session` payload terminates the loop; everything else — including
malformed resize payloads — is ignored, and nothing is sent on the error
channel. -/
def processTextMessage (payload : GoStr) : RemoteInputAction :=
  let msg := payload.take 128
  if goHasPre msg (gs ("resize: ")) then
    let rest := goTrimPre msg (gs ("resize: "))
    let vals := goSplit ',' rest
    if vals.length = 2 then
      let hv := goAtoiVal (vals.getD 0 [])
      let wv := goAtoiVal (vals.getD 1 [])
      if hv > 0 ∧ wv > 0 then RemoteInputAction.resize hv wv
      else RemoteInputAction.ignore
    else RemoteInputAction.ignore
  else if goHasPre msg (gs ("close session")) then RemoteInputAction.closeSession
  else RemoteInputAction.ignore

/-- Framing header of the docker attached-stream protocol: stream byte,
three padding bytes, big-endian 32-bit payload length, then the payload. -/
def encodeFrame (stream : Nat) (payload : GoBytes) : GoBytes :=
  stream :: 0 :: 0 :: 0 :: be32Bytes payload.length ++ payload

/-- Concatenated encoding of a frame sequence. -/
def encodeFrames : List (Nat × GoBytes) → GoBytes
  | [] => []
  | f :: rest => encodeFrame f.1 f.2 ++ encodeFrames rest

/-- Payload bytes of the frames with the given stream byte, concatenated in
order. -/
def framePayloadBytes (stream : Nat) : List (Nat × GoBytes) → GoBytes
  | [] => []
  | f :: rest =>
    if f.1 = stream then f.2 ++ framePayloadBytes stream rest
    else framePayloadBytes stream rest

/-! Theorems. -/

/-- The cleanup iteration is exactly a filter by the legacy predicate. -/
theorem cleanLegacyIteration_eq_filter (now : Int) (cs : List DockerContainer) :
    cleanLegacyIteration now cs = cs.filter (fun c => isLegacySidecar now c) := by
  induction cs with
  | nil => rfl
  | cons c rest ih =>
    by_cases h : isLegacySidecar now c <;>
      simp [cleanLegacyIteration, List.filter_cons, h, ih]

/-- C5, counterexample: the cleanup loop filters on the built-in default
image name, not the configured one.  With the sidecar image configured as
"my-sidecar:v1", a stopped day-old container whose image carries the
configured name is not removed, while one carrying the default name — which
does not match the configuration — is removed. -/
theorem c5_counterexample :
    let cfg := gs ("my-sidecar:v1")
    let cfgCont : DockerContainer := { image := gs ("my-sidecar:v1.2"), state := gs ("exited"), created := 0 }
    let defCont : DockerContainer := { image := gs ("trust-tunnel-sidecar:latest-1"), state := gs ("exited"), created := 0 }
    specLegacySidecar cfg 1000000 cfgCont = true ∧
    cleanLegacyIteration 1000000 [cfgCont] = [] ∧
    specLegacySidecar cfg 1000000 defCont = false ∧
    cleanLegacyIteration 1000000 [defCont] = [defCont] := by decide

/-- C5, amended: on each iteration the loop issues a forced remove for
exactly those listed containers whose image name begins with the built-in
default sidecar image name "trust-tunnel-sidecar:latest" (the configured
image is not consulted), whose state is not "running", and whose creation
timestamp is more than one hour in the past; per-container removal failures
are skipped without affecting the selection. -/
theorem c5_amended (now : Int) (cs : List DockerContainer) (c : DockerContainer) :
    c ∈ cleanLegacyIteration now cs ↔
      c ∈ cs ∧ goHasPre c.image defaultSidecarImage = true ∧
        c.state ≠ gs ("running") ∧ c.created < now - 3600 := by
  rw [cleanLegacyIteration_eq_filter, List.mem_filter]
  simp [isLegacySidecar, and_assoc]

/-- C7, counterexample: on the nsenter path a present login name with a
nologin shell (baduser) or a shell not ending in "sh" (fuser) produces the
same "user does not exist" failure as an absent name, and that failure is
classified MA_526, not MA_525. -/
theorem c7_counterexample :
    let passwd := gs ("baduser:x:100:100::/home/bad:/usr/sbin/nologin\nfuser:x:101:101::/home/f:/bin/false\n")
    nsenterUserCheck (gs ("baduser")) passwd = .error (gs ("user does not exist:baduser")) ∧
    nsenterUserCheck (gs ("fuser")) passwd = .error (gs ("user does not exist:fuser")) ∧
    nsenterUserCheck (gs ("ghost")) passwd = .error (gs ("user does not exist:ghost")) ∧
    goHasPre (wrapErrorWithCode (gs ("user does not exist:baduser"))) (gs ("code=MA_526")) = true ∧
    goHasPre (wrapErrorWithCode (gs ("user does not exist:baduser"))) (gs ("code=MA_525")) = false := by
  refine ⟨rfl, rfl, rfl, by decide, by decide⟩

/-- C7, amended: the HostNsEnter user check treats a login name whose passwd
entry has a nologin shell or a shell not ending in "sh" exactly like an
absent login name: `findUser` yields an empty uid for it, and every such
name is refused with the "user does not exist" message, which the taxonomy
classifies MA_526; the MA_525 classification is never produced on this
path. -/
theorem c7_amended :
    (∀ loginName passwdContent : GoStr, loginName ≠ [] →
        (findUser loginName passwdContent).1 = [] →
        nsenterUserCheck loginName passwdContent =
          .error (gs ("user does not exist:") ++ loginName)) ∧
    findUser (gs ("baduser")) (gs ("baduser:x:100:100::/home/bad:/usr/sbin/nologin\n")) = ([], [], []) ∧
    findUser (gs ("fuser")) (gs ("fuser:x:101:101::/home/f:/bin/false\n")) = ([], [], []) ∧
    goHasPre (wrapErrorWithCode (gs ("user does not exist:ghost"))) (gs ("code=MA_526")) = true := by
  refine ⟨?_, by decide, by decide, by decide⟩
  intro ln pc hne hempty
  simp [nsenterUserCheck, getUserInfo, hne, hempty]

/-- C7, witness for the amended theorem at a concrete nologin user. -/
theorem c7_witness :
    nsenterUserCheck (gs ("baduser")) (gs ("baduser:x:100:100::/home/bad:/usr/sbin/nologin\n")) =
      .error (gs ("user does not exist:") ++ gs ("baduser")) :=
  c7_amended.1 (gs ("baduser")) (gs ("baduser:x:100:100::/home/bad:/usr/sbin/nologin\n"))
    (by decide) (by decide)

/-- C1: the sidecar cap is inoperative.  `checkSidecarNum` returns the
literal `false` on its success path even though the session is a sidecar
session, so `Handle` never increments the gauge: after a first successful
docker clean-mode acquisition with limit 1 the broker state is unchanged
(the counter does not exceed its pre-session value by one), and a second
sidecar-bound request is admitted rather than rejected with MA_521.  The
final conjunct records the classification the rejection would carry, and
the general conjunct shows the error-free path always reports a
non-sidecar session. -/
theorem c1_code_bug :
    (handleAcquire { staleSessions := [], currentSidecarNum := 0 } [] (gs ("alice"))
        true false RuntimeKind.docker 1 (gs ("c1")) true
      = AcquireResult.created { staleSessions := [], currentSidecarNum := 0 } false) ∧
    (handleAcquire { staleSessions := [], currentSidecarNum := 0 } (gs ("s2")) (gs ("bob"))
        true false RuntimeKind.docker 1 (gs ("c1")) true
      = AcquireResult.created { staleSessions := [], currentSidecarNum := 0 } false) ∧
    checkSidecarNum 0 1 false RuntimeKind.docker = (false, none) ∧
    goHasPre (wrapErrorWithCode (wrapContainerError
        (gs ("current sidecar num exceed the limit: 1,1 ")) (gs ("c1"))))
      (gs ("code=MA_521")) = true ∧
    (∀ (n l : Int) (d : Bool) (r : RuntimeKind) (b : Bool),
        checkSidecarNum n l d r = (b, none) → b = false) := by
  refine ⟨by decide, by decide, by decide, by decide, ?_⟩
  intro n l d r b h
  simp only [checkSidecarNum] at h
  split_ifs at h <;> simp_all

/-- C1, witness: the hypothesis of the general conjunct of the code-bug
theorem is satisfiable at the concrete success path. -/
theorem c1_witness : (false : Bool) = false :=
  c1_code_bug.2.2.2.2 0 1 false RuntimeKind.docker false (by decide)

/-- C2: on reclaim the stale entry is removed from the table, but its
sidecar-session flag is dropped rather than kept — the local flag of the
handler is declared after the reclaim block and stays false — so when the
reclaimed session is later released cleanly the sidecar gauge is not
decremented. -/
theorem c2_code_bug :
    (handleAcquire
        { staleSessions := [(gs ("S"),
            { userName := gs ("alice"), sessRef := 5, isSidecarSession := true })],
          currentSidecarNum := 1 }
        (gs ("S")) (gs ("alice")) true false RuntimeKind.docker 1 (gs ("c1")) true
      = AcquireResult.reused 5 { staleSessions := [], currentSidecarNum := 1 } false) ∧
    (handleRelease { staleSessions := [], currentSidecarNum := 1 }
        (gs ("S")) (gs ("alice")) 5 false false true
      = { staleSessions := [], currentSidecarNum := 1 }) := by
  exact ⟨by decide, by decide⟩

/-- C6: `dockerSession.Clean` is not idempotent.  The first invocation
closes the attach connection and nils the interface field; a second
invocation dereferences the nil interface (`s.conn.Close()`) and panics. -/
theorem c6_code_bug :
    let sidecarSess : DockerSessResources := { conn := some (), isExec := false, containerRemoved := false }
    let execSess : DockerSessResources := { conn := some (), isExec := true, containerRemoved := false }
    (dockerClean sidecarSess true).1 = GoOutcome.ok ∧
    (dockerClean (dockerClean sidecarSess true).2 true).1 = GoOutcome.panicked ∧
    (dockerClean (dockerClean execSess true).2 true).1 = GoOutcome.panicked := by
  exact ⟨by decide, by decide, by decide⟩

/-- C4, counterexample: not every backend's exit-code accessor blocks for
drain.  The containerd accessor returns immediately — yielding 0, not the
task status 7, in a fully undrained state — and the nsenter and ssh
accessors return 0 through their two-second timeout branch while neither
done-signal has fired. -/
theorem c4_counterexample :
    (containerdExitCode ⟨false, ⟨false, false⟩, 7⟩ = some 0) ∧
    (nsenterExitCode ⟨false, true, ⟨false, false⟩, 7⟩ = some 0) ∧
    (sshExitCode ⟨false, true, ⟨false, false⟩, 7⟩ = some 0) := by
  exact ⟨by decide, by decide, by decide⟩

/-- C4, amended: only the docker-runtime accessor (shared by the
sidecar-attached and docker direct-exec variants) blocks until both the
stdout-done and the stderr-done signals have fired and only then returns
the inspected status.  The nsenter and ssh accessors return the command's
status only via their exit signal — which their waiter fires only after
both done-signals — but fall back to returning 0 when the two-second timer
fires first; the containerd accessor never blocks at all and returns its
stored code, which carries the task status only once its waiter (which
also requires both done-signals) has completed. -/
theorem c4_amended :
    (∀ (sig : DrainSignals) (code : Int),
        dockerExitCode sig code = some code ↔
          sig.stdoutDone = true ∧ sig.stderrDone = true) ∧
    (∀ (sig : DrainSignals) (code : Int),
        dockerExitCode sig code = none ↔
          ¬(sig.stdoutDone = true ∧ sig.stderrDone = true)) ∧
    (∀ st : ContainerdObs, (containerdExitCode st).isSome = true) ∧
    (∀ st : ContainerdObs, containerdWaiterConsistent st = true →
        st.waitCompleted = true →
        containerdExitCode st = some (Int.ofNat st.status) ∧
          st.sig.stdoutDone = true ∧ st.sig.stderrDone = true) ∧
    (∀ st : TimedExitObs, waiterConsistent st = true → st.exitFired = true →
        nsenterExitCode st = some st.exitCode ∧
          st.sig.stdoutDone = true ∧ st.sig.stderrDone = true) ∧
    (∀ st : TimedExitObs, st.exitFired = false → st.timerFired = true →
        nsenterExitCode st = some 0) ∧
    (∀ st : TimedExitObs, waiterConsistent st = true → st.exitFired = true →
        sshExitCode st = some st.exitCode ∧
          st.sig.stdoutDone = true ∧ st.sig.stderrDone = true) ∧
    (∀ st : TimedExitObs, st.exitFired = false → st.timerFired = true →
        sshExitCode st = some 0) := by
  refine ⟨?_, ?_, ?_, ?_, ?_, ?_, ?_, ?_⟩
  · intro sig code
    cases h1 : sig.stdoutDone <;> cases h2 : sig.stderrDone <;>
      simp [dockerExitCode, h1, h2]
  · intro sig code
    cases h1 : sig.stdoutDone <;> cases h2 : sig.stderrDone <;>
      simp [dockerExitCode, h1, h2]
  · intro st
    simp [containerdExitCode]
  · intro st hcons hdone
    have := hcons
    simp only [containerdWaiterConsistent, hdone, Bool.not_true, Bool.false_or,
      Bool.and_eq_true] at this
    simp [containerdExitCode, hdone, this.1, this.2]
  · intro st hcons hfired
    have := hcons
    simp only [waiterConsistent, hfired, Bool.not_true, Bool.false_or,
      Bool.and_eq_true] at this
    simp [nsenterExitCode, hfired, this.1, this.2]
  · intro st hfired htimer
    simp [nsenterExitCode, hfired, htimer]
  · intro st hcons hfired
    have := hcons
    simp only [waiterConsistent, hfired, Bool.not_true, Bool.false_or,
      Bool.and_eq_true] at this
    simp [sshExitCode, hfired, this.1, this.2]
  · intro st hfired htimer
    simp [sshExitCode, hfired, htimer]

/-- C4, witness: the amended theorem applied at concrete drained and
timed-out states. -/
theorem c4_witness :
    dockerExitCode ⟨true, true⟩ 3 = some 3 ∧
    nsenterExitCode ⟨true, false, ⟨true, true⟩, 4⟩ = some 4 ∧
    sshExitCode ⟨false, true, ⟨false, false⟩, 9⟩ = some 0 := by
  refine ⟨?_, ?_, ?_⟩
  · exact (c4_amended.1 ⟨true, true⟩ 3).mpr (by decide)
  · exact (c4_amended.2.2.2.2.1 ⟨true, false, ⟨true, true⟩, 4⟩ (by decide) (by decide)).1
  · exact c4_amended.2.2.2.2.2.2.2 ⟨false, true, ⟨false, false⟩, 9⟩ (by decide) (by decide)

set_option maxRecDepth 2000000

/-- C9, counterexample: the inbound goroutine reads a text payload once
into a 128-byte buffer, so a resize payload longer than 128 bytes is acted
on in truncated form.  The payload below begins with "resize: " and its
full remainder is two comma-separated decimal integers that both parse as
the strictly positive value 1, yet the resize operation is not invoked,
because the truncation cuts the second field down to a string of zeros. -/
theorem c9_counterexample :
    let p := gs ("resize: 1,") ++ List.replicate 120 '0' ++ ['1']
    goHasPre p (gs ("resize: ")) = true ∧
    goSplit ',' (goTrimPre p (gs ("resize: "))) = [gs ("1"), List.replicate 120 '0' ++ ['1']] ∧
    goAtoiParse (gs ("1")) = some 1 ∧
    goAtoiParse (List.replicate 120 '0' ++ ['1']) = some 1 ∧
    processTextMessage p = RemoteInputAction.ignore := by
  refine ⟨by decide, by decide, by decide, by decide, by decide⟩

/-- C9, amended: for every inbound text frame, the backend resize operation
is invoked exactly when the first 128 bytes of the payload (a single read
into the 128-byte buffer) begin with "resize: " and the remainder of those
bytes splits on commas into exactly two fields whose Atoi values — syntax
errors counting as 0, out-of-range values clamping to the int64 extremes —
are both strictly positive; a clamped-or-exact Atoi value is strictly
positive exactly when the field parses as a strictly positive decimal
integer.  Malformed payloads such as "resize: 0,0" and "resize: 7," are
ignored; the text path never writes to the session's error channel (its
action type has no error outcome). -/
theorem c9_amended :
    (∀ (payload : GoStr) (hv wv : Int),
        processTextMessage payload = RemoteInputAction.resize hv wv ↔
          goHasPre (payload.take 128) (gs ("resize: ")) = true ∧
          ∃ a b, goSplit ',' (goTrimPre (payload.take 128) (gs ("resize: "))) = [a, b] ∧
            goAtoiVal a = hv ∧ goAtoiVal b = wv ∧ 0 < hv ∧ 0 < wv) ∧
    (∀ a : GoStr, 0 < goAtoiVal a ↔ ∃ v : Int, goAtoiParse a = some v ∧ 0 < v) ∧
    processTextMessage (gs ("resize: 0,0")) = RemoteInputAction.ignore ∧
    processTextMessage (gs ("resize: 7,")) = RemoteInputAction.ignore := by
  refine ⟨?_, ?_, by decide, by decide⟩
  · intro payload hv wv
    constructor
    · intro h
      simp only [processTextMessage] at h
      by_cases hpre : goHasPre (payload.take 128) (gs ("resize: ")) = true
      · simp only [hpre, if_true] at h
        rcases hvals : goSplit ',' (goTrimPre (payload.take 128) (gs ("resize: ")))
          with _ | ⟨a, _ | ⟨b, _ | _⟩⟩ <;> rw [hvals] at h <;> simp at h
        by_cases hpos : goAtoiVal a > 0 ∧ goAtoiVal b > 0
        · rw [if_pos hpos] at h
          obtain ⟨h1, h2⟩ := RemoteInputAction.resize.inj h
          exact ⟨hpre, a, b, rfl, h1, h2, h1 ▸ hpos.1, h2 ▸ hpos.2⟩
        · rw [if_neg hpos] at h
          exact absurd h (by simp)
      · rw [if_neg (by simpa using hpre)] at h
        by_cases hc : goHasPre (payload.take 128) (gs ("close session")) = true <;>
          simp [hc] at h
    · rintro ⟨hpre, a, b, hvals, rfl, rfl, hhv, hwv⟩
      simp only [processTextMessage, hpre, if_true, hvals]
      simp [hhv, hwv]
  · intro a
    unfold goAtoiVal
    cases h : goAtoiParse a with
    | none => simp
    | some v =>
      simp only [Option.some.injEq]
      constructor
      · intro hpos
        refine ⟨v, rfl, ?_⟩
        by_cases h1 : v > int64Max
        · simp only [int64Max] at h1; omega
        · rw [if_neg h1] at hpos
          by_cases h2 : v < int64Min
          · rw [if_pos h2] at hpos
            simp only [int64Min] at hpos
            omega
          · rwa [if_neg h2] at hpos
      · rintro ⟨w, hw, hpos⟩
        cases hw
        split_ifs with h1 h2
        · simp only [int64Max]; omega
        · simp only [int64Min] at h2; omega
        · exact hpos

/-- C9, witness: the amended characterization applied at the concrete
well-formed payload "resize: 24,80". -/
theorem c9_witness :
    processTextMessage (gs ("resize: 24,80")) = RemoteInputAction.resize 24 80 :=
  ((c9_amended.1 (gs ("resize: 24,80")) 24 80).mpr
    ⟨by decide, gs ("24"), gs ("80"), by decide, by decide, by decide, by decide, by decide⟩)

/-- C10: when the Target-Type header is absent, request parsing behaves
exactly as if the header said "physical": the target type silently takes
the zero value TargetPhys, the container-only pod-name requirement is not
enforced, every successfully parsed such request carries the physical
target type, and only a present header with a value other than "physical"
or "container" is rejected.  The final conjunct exhibits a concrete
request with neither a Target-Type nor a Pod-Name header that parses
successfully. -/
theorem c10_target_type_default :
    (∀ h : GoHeaders, h.targetType = [] →
        getRequestInfo h = getRequestInfo { h with targetType := [gs ("physical")] }) ∧
    (∀ (h : GoHeaders) (info : RequestInfo), h.targetType = [] →
        getRequestInfo h = .ok info → info.targetType = clientTargetPhys) ∧
    (∀ (h : GoHeaders) (v : GoStr), h.targetType = [v] →
        v ≠ gs ("physical") → v ≠ gs ("container") →
        getRequestInfo h = .error (gs ("request error: invalid target type"))) ∧
    getRequestInfo { command := [gs ("ls")] } = .ok { cmd := [gs ("ls")] } := by
  refine ⟨?_, ?_, ?_, by rfl⟩
  · intro h habsent
    simp [getRequestInfo, habsent, hd0, clientTargetPhys, clientTargetContainer]
  · intro h info habsent hok
    simp [getRequestInfo, habsent, hd0, clientTargetPhys, clientTargetContainer] at hok
    repeat' split at hok
    any_goals simp_all [clientTargetPhys]
    exact (congrArg RequestInfo.targetType hok).symm
  · intro h v hv hnp hnc
    simp [getRequestInfo, hv, hd0, hnp, hnc]

/-- C10, witness: the absent-header part of the theorem applied at a
concrete envelope without Target-Type or Pod-Name headers. -/
theorem c10_witness :
    getRequestInfo ({ command := [gs ("ls")] } : GoHeaders) =
      getRequestInfo ({ command := [gs ("ls")], targetType := [gs ("physical")] } : GoHeaders) :=
  c10_target_type_default.1 { command := [gs ("ls")] } rfl

/-- The per-element decode loop succeeds on an all-valid list and yields
the individually decoded elements in order. -/
theorem decodeCommands_ok (l : List GoStr) (hall : ∀ x ∈ l, goBase64Decode x ≠ none) :
    decodeCommands l = .ok (l.map (fun x => (goBase64Decode x).getD [])) := by
  induction l with
  | nil => rfl
  | cons x rest ih =>
    have hx := hall x (List.mem_cons_self x rest)
    obtain ⟨d, hd⟩ := Option.ne_none_iff_exists'.mp hx
    have hrest := ih (fun y hy => hall y (List.mem_cons_of_mem x hy))
    simp [decodeCommands, hd, hrest]

/-- The per-element decode loop fails whenever any element is corrupt. -/
theorem decodeCommands_error (l : List GoStr) (hbad : ∃ x ∈ l, goBase64Decode x = none) :
    decodeCommands l = .error (gs ("decoding command error")) := by
  induction l with
  | nil => simp at hbad
  | cons x rest ih =>
    rcases hbad with ⟨y, hy, hnone⟩
    rcases List.mem_cons.mp hy with rfl | hmem
    · simp [decodeCommands, hnone]
    · have := ih ⟨y, hmem, hnone⟩
      simp only [decodeCommands]
      cases hx : goBase64Decode x with
      | none => rfl
      | some d => simp [this]

/-- C8: request parsing consumes exactly one command source.  With the
other envelope fields benign: when both command header lists are absent
the request fails with "request error: no command"; with only the raw
Command list present the parsed command is that list verbatim and the
base64 flag stays false; with a Command-Base64-Encode list present whose
elements all decode, the parsed command is the element-wise decoded list
(the raw list is ignored) and the base64 flag is set; and when any base64
element is corrupt the whole request fails with the decode error before
`Handle` reaches backend construction.  The final conjuncts evaluate the
decoder on the malformed element "!!!" and on a well-formed element. -/
theorem c8_command_ingestion :
    (∀ h : GoHeaders, h.targetType = [] → h.interactive = [] → h.tty = [] →
        h.commandB64 = [] → h.command = [] →
        getRequestInfo h = .error (gs ("request error: no command"))) ∧
    (∀ h : GoHeaders, h.targetType = [] → h.interactive = [] → h.tty = [] →
        h.cpus = [] → h.memory = [] → h.commandB64 = [] → h.command ≠ [] →
        (getRequestInfo h).toOption.map (fun i => (i.cmd, i.useBase64)) =
          some (h.command, false)) ∧
    (∀ h : GoHeaders, h.targetType = [] → h.interactive = [] → h.tty = [] →
        h.cpus = [] → h.memory = [] → h.commandB64 ≠ [] →
        (∀ x ∈ h.commandB64, goBase64Decode x ≠ none) →
        (getRequestInfo h).toOption.map (fun i => (i.cmd, i.useBase64)) =
          some (h.commandB64.map (fun x => (goBase64Decode x).getD []), true)) ∧
    (∀ h : GoHeaders, h.targetType = [] → h.interactive = [] → h.tty = [] →
        (∃ x ∈ h.commandB64, goBase64Decode x = none) →
        getRequestInfo h = .error (gs ("decoding command error")) ∧
        handleParseStage h = HandleStage.rejectedAtParse) ∧
    goBase64Decode (gs ("!!!")) = none ∧
    goBase64Decode (gs ("bHMgL3RtcA==")) = some (gs ("ls /tmp")) := by
  refine ⟨?_, ?_, ?_, ?_, by decide, by decide⟩
  · intro h ht hi htt hb hc
    simp [getRequestInfo, ht, hi, htt, hb, hc, hd0, clientTargetContainer]
  · intro h ht hi htt hcp hm hb hc
    simp [getRequestInfo, ht, hi, htt, hcp, hm, hb, hc, hd0, clientTargetContainer,
      Except.toOption]
  · intro h ht hi htt hcp hm hb hall
    simp [getRequestInfo, ht, hi, htt, hcp, hm, hb, hd0, clientTargetContainer,
      decodeCommands_ok h.commandB64 hall, Except.toOption]
  · intro h ht hi htt hbad
    have hb : h.commandB64 ≠ [] := by
      rcases hbad with ⟨x, hx, _⟩
      exact fun hnil => by simp [hnil] at hx
    have herr := decodeCommands_error h.commandB64 hbad
    constructor
    · simp [getRequestInfo, ht, hi, htt, hb, herr, hd0, clientTargetContainer]
    · simp [handleParseStage, getRequestInfo, ht, hi, htt, hb, herr, hd0,
        clientTargetContainer]

/-- C8, witness: the malformed-element part of the theorem applied to the
envelope of scenario 6 of the specification (a single "!!!" element),
with a raw Command header also present. -/
theorem c8_witness :
    getRequestInfo { commandB64 := [gs ("!!!")], command := [gs ("ls")] } =
      .error (gs ("decoding command error")) ∧
    handleParseStage { commandB64 := [gs ("!!!")], command := [gs ("ls")] } =
      HandleStage.rejectedAtParse :=
  c8_command_ingestion.2.2.2.1 { commandB64 := [gs ("!!!")], command := [gs ("ls")] }
    rfl rfl rfl ⟨gs ("!!!"), by decide, by decide⟩

/-- The unified reader's chunks reassemble to the input stream. -/
theorem streamUnifiedOutput_flatten : ∀ (n : Nat) (l : GoBytes), l.length = n →
    (streamUnifiedOutput l).flatten = l := by
  intro n
  induction n using Nat.strong_induction_on with
  | _ n ih =>
    intro l hlen
    cases l with
    | nil => simp [streamUnifiedOutput]
    | cons b bs =>
      rw [streamUnifiedOutput]
      have hlt : ((b :: bs).drop 4096).length < n := by
        simp [List.length_drop] at *
        omega
      rw [List.flatten_cons, ih _ hlt _ rfl, List.take_append_drop]

/-- A frame whose stream byte is 0 (stdin) and whose declared length is
nonzero makes the pump return without dispatching. -/
theorem pumpFrame_stdin (L : Nat) (input : GoBytes) (out err : List GoBytes)
    (hL : L ≠ 0) : pumpFrame 0 L input out err = SplitStep.stop out err := by
  rw [pumpFrame]
  simp only [hL, dite_false]
  by_cases hlt : input.length < min L 4096
  · simp [hlt]
  · simp [hlt]

/-- Pumping a stdout frame consumes exactly the declared payload bytes and
appends their 4096-byte chunks to the stdout channel. -/
theorem pumpFrame_stdout : ∀ (n : Nat) (payload rest : GoBytes) (out err : List GoBytes),
    payload.length = n →
    pumpFrame 1 n (payload ++ rest) out err =
      SplitStep.cont (out ++ streamUnifiedOutput payload) err n := by
  intro n
  induction n using Nat.strong_induction_on with
  | _ n ih =>
    intro payload rest out err hlen
    by_cases h0 : n = 0
    · subst h0
      have hnil : payload = [] := List.eq_nil_of_length_eq_zero hlen
      subst hnil
      rw [pumpFrame]
      simp [streamUnifiedOutput]
    · rw [pumpFrame]
      simp only [h0, dite_false]
      have hsz : min n 4096 ≤ payload.length := by omega
      have hnlt : ¬ (payload ++ rest).length < min n 4096 := by
        simp only [List.length_append]
        omega
      simp only [hnlt, if_false]
      rw [List.take_append_of_le_length hsz, List.drop_append_of_le_length hsz]
      have hrec := ih (n - min n 4096) (by omega) (payload.drop (min n 4096)) rest
        (out ++ [payload.take (min n 4096)]) err
        (by simp only [List.length_drop]; omega)
      simp only [hrec]
      have hsplit : streamUnifiedOutput payload =
          payload.take (min n 4096) :: streamUnifiedOutput (payload.drop (min n 4096)) := by
        have hcons : payload ≠ [] := by
          intro hh
          rw [hh] at hlen
          simp at hlen
          omega
        obtain ⟨b, bs, rfl⟩ := List.exists_cons_of_ne_nil hcons
        rw [streamUnifiedOutput]
        by_cases hc : n ≤ 4096
        · have h1 : min n 4096 = n := by omega
          have h2 : (b :: bs).length ≤ 4096 := by omega
          have h3 : (b :: bs).length ≤ n := by omega
          rw [h1, List.take_of_length_le h2, List.take_of_length_le h3,
            List.drop_eq_nil_of_le h2, List.drop_eq_nil_of_le h3]
        · have h1 : min n 4096 = 4096 := by omega
          rw [h1]
      rw [hsplit]
      have hmin : min n 4096 + (n - min n 4096) = n := by omega
      rw [hmin]
      simp

/-- Pumping an stderr frame consumes exactly the declared payload bytes and
appends their 4096-byte chunks to the stderr channel. -/
theorem pumpFrame_stderr : ∀ (n : Nat) (payload rest : GoBytes) (out err : List GoBytes),
    payload.length = n →
    pumpFrame 2 n (payload ++ rest) out err =
      SplitStep.cont out (err ++ streamUnifiedOutput payload) n := by
  intro n
  induction n using Nat.strong_induction_on with
  | _ n ih =>
    intro payload rest out err hlen
    by_cases h0 : n = 0
    · subst h0
      have hnil : payload = [] := List.eq_nil_of_length_eq_zero hlen
      subst hnil
      rw [pumpFrame]
      simp [streamUnifiedOutput]
    · rw [pumpFrame]
      simp only [h0, dite_false]
      have hsz : min n 4096 ≤ payload.length := by omega
      have hnlt : ¬ (payload ++ rest).length < min n 4096 := by
        simp only [List.length_append]
        omega
      simp only [hnlt, if_false]
      rw [List.take_append_of_le_length hsz, List.drop_append_of_le_length hsz]
      have hrec := ih (n - min n 4096) (by omega) (payload.drop (min n 4096)) rest
        out (err ++ [payload.take (min n 4096)])
        (by simp only [List.length_drop]; omega)
      simp only [hrec]
      have hsplit : streamUnifiedOutput payload =
          payload.take (min n 4096) :: streamUnifiedOutput (payload.drop (min n 4096)) := by
        have hcons : payload ≠ [] := by
          intro hh
          rw [hh] at hlen
          simp at hlen
          omega
        obtain ⟨b, bs, rfl⟩ := List.exists_cons_of_ne_nil hcons
        rw [streamUnifiedOutput]
        by_cases hc : n ≤ 4096
        · have h1 : min n 4096 = n := by omega
          have h2 : (b :: bs).length ≤ 4096 := by omega
          have h3 : (b :: bs).length ≤ n := by omega
          rw [h1, List.take_of_length_le h2, List.take_of_length_le h3,
            List.drop_eq_nil_of_le h2, List.drop_eq_nil_of_le h3]
        · have h1 : min n 4096 = 4096 := by omega
          rw [h1]
      rw [hsplit]
      have hmin : min n 4096 + (n - min n 4096) = n := by omega
      rw [hmin]
      simp

/-- The big-endian length field round-trips for lengths below `2 ^ 32`. -/
theorem beUint32_be32Bytes (n : Nat) (hn : n < 4294967296) :
    beUint32 (n / 16777216 % 256) (n / 65536 % 256) (n / 256 % 256) (n % 256) = n := by
  simp only [beUint32]
  omega

/-- The split-demux loop over a well-formed frame sequence closes both
channels having dispatched exactly the stdout payloads to the stdout
channel and the stderr payloads to the stderr channel. -/
theorem streamSplitLoop_frames :
    ∀ (frames : List (Nat × GoBytes)) (out err : List GoBytes),
    (∀ f ∈ frames, f.1 = 1 ∨ f.1 = 2) →
    (∀ f ∈ frames, f.2.length < 4294967296) →
    ∃ o e, streamSplitLoop (encodeFrames frames) out err = SplitResult.closed o e ∧
      o.flatten = out.flatten ++ framePayloadBytes 1 frames ∧
      e.flatten = err.flatten ++ framePayloadBytes 2 frames := by
  intro frames
  induction frames with
  | nil =>
    intro out err _ _
    refine ⟨out, err, ?_, by simp [framePayloadBytes], by simp [framePayloadBytes]⟩
    rw [streamSplitLoop]
    simp [encodeFrames]
  | cons f rest ih =>
    intro out err hstream hlen
    obtain ⟨s, p⟩ := f
    have hs := hstream (s, p) (List.mem_cons_self _ _)
    have hp := hlen (s, p) (List.mem_cons_self _ _)
    simp only at hs hp
    have hstream' : ∀ f ∈ rest, f.1 = 1 ∨ f.1 = 2 :=
      fun f hf => hstream f (List.mem_cons_of_mem _ hf)
    have hlen' : ∀ f ∈ rest, f.2.length < 4294967296 :=
      fun f hf => hlen f (List.mem_cons_of_mem _ hf)
    have hinput : encodeFrames ((s, p) :: rest) =
        s :: 0 :: 0 :: 0 :: p.length / 16777216 % 256 :: p.length / 65536 % 256 ::
          p.length / 256 % 256 :: p.length % 256 :: (p ++ encodeFrames rest) := by
      simp [encodeFrames, encodeFrame, be32Bytes]
    rw [hinput, streamSplitLoop]
    have hguard : ¬ (s :: 0 :: 0 :: 0 :: p.length / 16777216 % 256 :: p.length / 65536 % 256 ::
        p.length / 256 % 256 :: p.length % 256 :: (p ++ encodeFrames rest)).length < 8 := by
      simp
    simp only [hguard, dite_false, List.getD_cons_zero, List.getD_cons_succ, List.drop_succ_cons,
      List.drop_zero]
    rw [beUint32_be32Bytes p.length hp]
    rcases hs with rfl | rfl
    · rw [pumpFrame_stdout p.length p (encodeFrames rest) out err rfl]
      simp only
      rw [List.drop_left]
      obtain ⟨o, e, hloop, ho, he⟩ := ih (out ++ streamUnifiedOutput p) err hstream' hlen'
      refine ⟨o, e, hloop, ?_, ?_⟩
      · rw [ho]
        simp [framePayloadBytes, streamUnifiedOutput_flatten p.length p rfl]
      · rw [he]
        simp [framePayloadBytes]
    · rw [pumpFrame_stderr p.length p (encodeFrames rest) out err rfl]
      simp only
      rw [List.drop_left]
      obtain ⟨o, e, hloop, ho, he⟩ := ih out (err ++ streamUnifiedOutput p) hstream' hlen'
      refine ⟨o, e, hloop, ?_, ?_⟩
      · rw [ho]
        simp [framePayloadBytes]
      · rw [he]
        simp [framePayloadBytes, streamUnifiedOutput_flatten p.length p rfl]

/-- A leading stdin-typed frame with a nonzero declared length makes the
split reader return without dispatching anything. -/
theorem streamSplitOutput_stdin (payload more : GoBytes) (hne : payload ≠ [])
    (hlen : payload.length < 4294967296) :
    streamSplitOutput (encodeFrame 0 payload ++ more) = SplitResult.aborted [] [] := by
  have hinput : encodeFrame 0 payload ++ more =
      0 :: 0 :: 0 :: 0 :: payload.length / 16777216 % 256 :: payload.length / 65536 % 256 ::
        payload.length / 256 % 256 :: payload.length % 256 :: (payload ++ more) := by
    simp [encodeFrame, be32Bytes]
  rw [streamSplitOutput, hinput, streamSplitLoop]
  have hguard : ¬ (0 :: 0 :: 0 :: 0 :: payload.length / 16777216 % 256 ::
      payload.length / 65536 % 256 :: payload.length / 256 % 256 :: payload.length % 256 ::
      (payload ++ more)).length < 8 := by
    simp
  simp only [hguard, dite_false, List.getD_cons_zero, List.getD_cons_succ, List.drop_succ_cons,
    List.drop_zero]
  rw [beUint32_be32Bytes payload.length hlen]
  rw [pumpFrame_stdin payload.length _ [] []
    (fun hz => hne (List.eq_nil_of_length_eq_zero hz))]

/-- C3, counterexample: the direct-exec docker variant does not demultiplex.
`establishDockerSession` starts the output goroutine with the argument
`!c.DisableCleanMode`, so a non-tty direct-exec session (DisableCleanMode
true) takes the unified path, which delivers the raw multiplexed bytes —
the 8-byte headers and the stderr payloads included — on the stdout
channel; and in the split path a stdin-typed frame with declared length 0
is skipped silently, not treated as fatal. -/
theorem c3_counterexample :
    dockerSessionStreamMode false true = OutputStreamMode.unified ∧
    handleStreamOutput false (!true) = OutputStreamMode.unified ∧
    streamUnifiedOutput (encodeFrame 2 [67]) = [[2, 0, 0, 0, 0, 0, 0, 1, 67]] ∧
    streamSplitOutput (encodeFrame 0 [] ++ encodeFrame 1 [66]) =
      SplitResult.closed [[66]] [] := by
  refine ⟨by decide, by decide, ?_, ?_⟩
  · simp [streamUnifiedOutput, encodeFrame, be32Bytes]
  · simp [streamSplitOutput, streamSplitLoop, pumpFrame, encodeFrame, be32Bytes, beUint32]

/-- C3, amended: for non-tty docker sessions of the sidecar-attached
variant (clean mode) the attached stream is demultiplexed according to the
8-byte-header framing — for every well-formed frame sequence exactly the
big-endian-declared number of payload bytes of each frame is dispatched to
the stream selected by byte 0 (1 = stdout, 2 = stderr), and a stdin-typed
frame with a nonzero declared length is fatal to the reader (a zero-length
one is skipped); the direct-exec variant instead consumes the stream
unified, emitting all bytes as stdout. -/
theorem c3_amended :
    (∀ frames : List (Nat × GoBytes),
      (∀ f ∈ frames, f.1 = 1 ∨ f.1 = 2) →
      (∀ f ∈ frames, f.2.length < 4294967296) →
      ∃ out err, streamSplitOutput (encodeFrames frames) = SplitResult.closed out err ∧
        out.flatten = framePayloadBytes 1 frames ∧
        err.flatten = framePayloadBytes 2 frames) ∧
    (∀ payload more : GoBytes, payload ≠ [] → payload.length < 4294967296 →
      streamSplitOutput (encodeFrame 0 payload ++ more) = SplitResult.aborted [] []) ∧
    dockerSessionStreamMode false false = OutputStreamMode.split ∧
    dockerSessionStreamMode false true = OutputStreamMode.unified ∧
    (∀ (n : Nat) (l : GoBytes), l.length = n → (streamUnifiedOutput l).flatten = l) := by
  refine ⟨?_, streamSplitOutput_stdin, by decide, by decide, streamUnifiedOutput_flatten⟩
  intro frames h1 h2
  obtain ⟨o, e, h, ho, he⟩ := streamSplitLoop_frames frames [] [] h1 h2
  exact ⟨o, e, h, by simpa using ho, by simpa using he⟩

/-- C3, witness: the amended demux characterization applied to a concrete
two-frame stream and a concrete nonzero stdin frame. -/
theorem c3_witness :
    (∃ out err, streamSplitOutput (encodeFrames [(1, [65]), (2, [66, 67])]) =
      SplitResult.closed out err ∧ out.flatten = [65] ∧ err.flatten = [66, 67]) ∧
    streamSplitOutput (encodeFrame 0 [68] ++ encodeFrame 1 [66]) =
      SplitResult.aborted [] [] := by
  constructor
  · obtain ⟨o, e, h, ho, he⟩ := c3_amended.1 [(1, [65]), (2, [66, 67])]
      (by decide) (by decide)
    exact ⟨o, e, h, by simpa [framePayloadBytes] using ho,
      by simpa [framePayloadBytes] using he⟩
  · exact c3_amended.2.1 [68] (encodeFrame 1 [66]) (by decide) (by decide)
